import Mathlib

/-!
Verification of the protocol-adapter core of botzy2api (src/index.ts).

The embedding works on `List Char` as the text type. Raw byte chunks are
modelled as decoded text fragments: the source decodes with a stateful
TextDecoder, so a byte-level fragmentation of the stream corresponds to a
text-level fragmentation of the decoded character sequence.

Embedded source functions (names kept from src/index.ts):
 - JSON.parse             -> jsonParse (fuel-based recursive-descent parser;
                             numeric literals are modelled by their integer
                             part, which no claim inspects)
 - createUpstreamToOpenAIStream -> lineItems / transformChunk / runTransform
 - transformNonStreamResponse   -> transformNonStreamResponse (aggStep loop)
 - transformRequestToUpstream   -> transformRequestToUpstream
 - handleApi / fetch router     -> handleApi / serveFetch (effect traces)
-/

/-- JSON values, the result type of the embedded JSON.parse.  Object fields
are kept in source order; duplicate keys are resolved to the last
occurrence at lookup time, matching JS JSON.parse. -/
inductive Json where
  | null : Json
  | bool : Bool → Json
  | num : Int → Json
  | str : List Char → Json
  | arr : List Json → Json
  | obj : List (List Char × Json) → Json

/-- JSON syntactic whitespace, skipped between tokens by JSON.parse. -/
def isJsonWs (c : Char) : Bool :=
  c = ' ' || c = '\t' || c = '\n' || c = '\r'

def skipWs (l : List Char) : List Char :=
  l.dropWhile isJsonWs

def hexVal (c : Char) : Option Nat :=
  if '0' ≤ c ∧ c ≤ '9' then some (c.toNat - 48)
  else if 'a' ≤ c ∧ c ≤ 'f' then some (c.toNat - 87)
  else if 'A' ≤ c ∧ c ≤ 'F' then some (c.toNat - 55)
  else none

/-- Body of a JSON string literal, after the opening quote: returns the
decoded characters and the remaining input after the closing quote. -/
def parseStrBody : Nat → List Char → Option (List Char × List Char)
  | 0, _ => none
  | _ + 1, [] => none
  | fuel + 1, c :: cs =>
    if c = '"' then some ([], cs)
    else if c = '\\' then
      match cs with
      | [] => none
      | e :: cs₁ =>
        let cont := fun (ch : Char) (rest : List Char) =>
          (parseStrBody fuel rest).map (fun p => (ch :: p.1, p.2))
        if e = '"' ∨ e = '\\' ∨ e = '/' then cont e cs₁
        else if e = 'b' then cont (Char.ofNat 8) cs₁
        else if e = 'f' then cont (Char.ofNat 12) cs₁
        else if e = 'n' then cont '\n' cs₁
        else if e = 'r' then cont '\r' cs₁
        else if e = 't' then cont '\t' cs₁
        else if e = 'u' then
          match cs₁ with
          | a :: b :: c₂ :: d :: rest =>
            match hexVal a, hexVal b, hexVal c₂, hexVal d with
            | some x, some y, some z, some w =>
                cont (Char.ofNat (((x * 16 + y) * 16 + z) * 16 + w)) rest
            | _, _, _, _ => none
          | _ => none
        else none
    else if c.toNat < 32 then none
    else (parseStrBody fuel cs).map (fun p => (c :: p.1, p.2))

def digitSpan (l : List Char) : List Char × List Char :=
  (l.takeWhile Char.isDigit, l.dropWhile Char.isDigit)

def natOfDigits (ds : List Char) : Nat :=
  ds.foldl (fun a c => a * 10 + (c.toNat - 48)) 0

/-- Optional fraction part of a JSON number; the fractional digits are
validated syntactically and then dropped (no claim inspects them). -/
def parseFrac (l : List Char) : Option (List Char) :=
  match l with
  | '.' :: r =>
    let p := digitSpan r
    if p.1.isEmpty then none else some p.2
  | _ => some l

/-- Optional exponent part of a JSON number, validated syntactically. -/
def parseExp (l : List Char) : Option (List Char) :=
  match l with
  | c :: r =>
    if c = 'e' ∨ c = 'E' then
      let r₂ := match r with
        | s :: r₁ => if s = '+' ∨ s = '-' then r₁ else s :: r₁
        | [] => []
      let p := digitSpan r₂
      if p.1.isEmpty then none else some p.2
    else some (c :: r)
  | [] => some []

/-- A JSON number starting at the given input (which must begin with a
minus sign or a digit).  Yields its integer part as the value. -/
def parseNum (l : List Char) : Option (Json × List Char) :=
  let signed := match l with
    | '-' :: r => (true, r)
    | r => (false, r)
  match signed.2 with
  | d :: _ =>
    if d.isDigit then
      let p := digitSpan signed.2
      if p.1.headD '0' = '0' ∧ 1 < p.1.length then none
      else
        match parseFrac p.2 with
        | none => none
        | some r₂ =>
          match parseExp r₂ with
          | none => none
          | some r₃ =>
            let n : Int := Int.ofNat (natOfDigits p.1)
            some (Json.num (if signed.1 then -n else n), r₃)
    else none
  | [] => none

def expectLit (lit : List Char) (l : List Char) : Option (List Char) :=
  if l.take lit.length = lit then some (l.drop lit.length) else none

mutual

/-- One JSON value (with leading whitespace), recursive descent with fuel. -/
def parseVal : Nat → List Char → Option (Json × List Char)
  | 0, _ => none
  | fuel + 1, input =>
    match skipWs input with
    | [] => none
    | c :: cs =>
      if c = 'n' then (expectLit "ull".data cs).map (fun r => (Json.null, r))
      else if c = 't' then (expectLit "rue".data cs).map (fun r => (Json.bool true, r))
      else if c = 'f' then (expectLit "alse".data cs).map (fun r => (Json.bool false, r))
      else if c = '"' then
        (parseStrBody (cs.length + 1) cs).map (fun p => (Json.str p.1, p.2))
      else if c = '[' then
        match skipWs cs with
        | ']' :: r => some (Json.arr [], r)
        | r => (parseItems fuel r).map (fun p => (Json.arr p.1, p.2))
      else if c = '{' then
        match skipWs cs with
        | '}' :: r => some (Json.obj [], r)
        | r => (parseMembers fuel r).map (fun p => (Json.obj p.1, p.2))
      else parseNum (c :: cs)

/-- Comma-separated array items, after the opening bracket, consuming the
closing bracket. -/
def parseItems : Nat → List Char → Option (List Json × List Char)
  | 0, _ => none
  | fuel + 1, input =>
    match parseVal fuel input with
    | none => none
    | some (v, rest) =>
      match skipWs rest with
      | ',' :: r => (parseItems fuel r).map (fun p => (v :: p.1, p.2))
      | ']' :: r => some ([v], r)
      | _ => none

/-- Comma-separated object members, after the opening brace, consuming the
closing brace. -/
def parseMembers : Nat → List Char → Option (List (List Char × Json) × List Char)
  | 0, _ => none
  | fuel + 1, input =>
    match skipWs input with
    | '"' :: cs =>
      match parseStrBody (cs.length + 1) cs with
      | none => none
      | some (k, rest) =>
        match skipWs rest with
        | ':' :: r =>
          match parseVal fuel r with
          | none => none
          | some (v, rest₂) =>
            match skipWs rest₂ with
            | ',' :: r₂ => (parseMembers fuel r₂).map (fun p => ((k, v) :: p.1, p.2))
            | '}' :: r₂ => some ([(k, v)], r₂)
            | _ => none
        | _ => none
    | _ => none

end

/-- Embedding of JSON.parse: `none` models a thrown SyntaxError. -/
def jsonParse (l : List Char) : Option Json :=
  match parseVal (2 * l.length + 2) l with
  | some (v, rest) => if (skipWs rest).isEmpty then some v else none
  | none => none

/-- JS truthiness of a JSON-derived value (`if (x)`); absent properties are
handled at the Option level by the callers. -/
def truthy : Json → Bool
  | Json.null => false
  | Json.bool b => b
  | Json.num n => n != 0
  | Json.str s => !s.isEmpty
  | Json.arr _ => true
  | Json.obj _ => true

mutual

/-- JS ToString of a JSON-derived value, as used by the implicit coercion
in `fullContent += content`.  Arrays join their elements with commas, with
null elements rendered empty, as Array.prototype.toString does. -/
def jsToString : Json → List Char
  | Json.null => "null".data
  | Json.bool b => if b then "true".data else "false".data
  | Json.num n => (toString n).data
  | Json.str s => s
  | Json.obj _ => "[object Object]".data
  | Json.arr xs => jsJoinArr xs

/-- Comma join for JS array-to-string coercion. -/
def jsJoinArr : List Json → List Char
  | [] => []
  | [Json.null] => []
  | [j] => jsToString j
  | Json.null :: rest => ',' :: jsJoinArr rest
  | j :: rest => jsToString j ++ ',' :: jsJoinArr rest

end

/-- JS property read `j[k]` on a JSON-derived value: a field of an object,
`undefined` (none) otherwise.  Duplicate keys resolve to the last one. -/
def jGet (k : List Char) : Json → Option Json
  | Json.obj fs => List.lookup k fs.reverse
  | _ => none

/-- JS indexed read `j?.[0]`: first element of an array, the "0" property
of an object, the first character of a string, `undefined` otherwise. -/
def jIdx0 : Json → Option Json
  | Json.arr xs => xs.head?
  | Json.obj fs => List.lookup "0".data fs.reverse
  | Json.str s => s.head?.map (fun c => Json.str [c])
  | _ => none

/-- The optional chain `data?.choices?.[0]?.delta` from both transformers. -/
def deltaPath (d : Json) : Option Json :=
  ((jGet "choices".data d).bind jIdx0).bind (jGet "delta".data)

/-- The optional chain `data?.choices?.[0]?.delta?.content` used by
transformNonStreamResponse. -/
def contentPath (d : Json) : Option Json :=
  (deltaPath d).bind (jGet "content".data)

/-- Whitespace for the JS String.prototype.trim applied to the payload. -/
def isJsSpace (c : Char) : Bool :=
  c = ' ' || c = '\t' || c = '\n' || c = '\r' || c = '\x0b' || c = '\x0c' ||
  c = '\u00A0' || c = '\uFEFF' || c = '\u2028' || c = '\u2029'

/-- Embedding of `s.trim()`. -/
def trimChars (l : List Char) : List Char :=
  ((l.dropWhile isJsSpace).reverse.dropWhile isJsSpace).reverse

theorem jsonParse_object_example :
    jsonParse "\x7b\"choices\":[\x7b\"delta\":\x7b\"content\":\"Hi\"\x7d\x7d]\x7d".data
      = some (Json.obj [("choices".data, Json.arr
          [Json.obj [("delta".data, Json.obj [("content".data, Json.str "Hi".data)])]])]) := rfl

theorem jsonParse_malformed_example : jsonParse "not-json".data = none := rfl

theorem trimChars_example : trimChars " [DONE] ".data = "[DONE]".data := rfl

/-- The JS single-character split `s.split("\n")`: every segment, the last
one being the part after the final newline (possibly empty). -/
def splitNl : List Char → List (List Char)
  | [] => [[]]
  | c :: cs =>
    if c = '\n' then [] :: splitNl cs
    else
      match splitNl cs with
      | [] => [[c]]
      | l :: ls => (c :: l) :: ls

/-- Split into (complete lines, unterminated tail); proved equal to
`splitNl` with the last segment separated off. -/
def splitCL : List Char → List (List Char) × List Char
  | [] => ([], [])
  | c :: cs =>
    let r := splitCL cs
    if c = '\n' then ([] :: r.1, r.2)
    else
      match r.1 with
      | [] => ([], c :: r.2)
      | l :: ls => ((c :: l) :: ls, r.2)

/-- The identifying parameters of one stream transform instance:
`requestId`, `model`, and the chunk timestamp (the source stamps chunks
with the wall clock, modelled as a parameter). -/
structure StreamParams where
  id : List Char
  model : List Char
  created : Nat
deriving DecidableEq

/-- The varying fields of one emitted OpenAI streaming chunk; its constant
fields (`object`, `choices[0].index`) are rendered by `stringifyChunk`.
`delta_content = none` models the empty `delta: {}` object. -/
structure OpenAIChunk where
  id : List Char
  model : List Char
  created : Nat
  delta_content : Option (List Char)
  finish_reason : Option (List Char)
deriving DecidableEq

/-- One write to the readable side of the transform stream: either a
framed chunk object or the literal terminator write
`controller.enqueue(encoder.encode("data: [DONE]\n\n"))`. -/
inductive StreamItem where
  | chunkItem : OpenAIChunk → StreamItem
  | doneItem : StreamItem
deriving DecidableEq

def hexDigit (n : Nat) : Char :=
  if n < 10 then Char.ofNat (48 + n) else Char.ofNat (87 + n)

/-- JSON.stringify escaping for one character inside a string literal. -/
def escapeJsonChar (c : Char) : List Char :=
  if c = '"' then ['\\', '"']
  else if c = '\\' then ['\\', '\\']
  else if c = '\n' then ['\\', 'n']
  else if c = '\r' then ['\\', 'r']
  else if c = '\t' then ['\\', 't']
  else if c = '\x08' then ['\\', 'b']
  else if c = '\x0c' then ['\\', 'f']
  else if c.toNat < 32 then
    '\\' :: 'u' :: '0' :: '0' :: hexDigit (c.toNat / 16) :: [hexDigit (c.toNat % 16)]
  else [c]

def quoteJson (l : List Char) : List Char :=
  '"' :: (l.map escapeJsonChar).flatten ++ ['"']

/-- JSON.stringify of one streaming chunk, with the field order used at its
construction site in createUpstreamToOpenAIStream. -/
def stringifyChunk (c : OpenAIChunk) : List Char :=
  "\x7b\"id\":".data ++ quoteJson c.id ++
  ",\"object\":\"chat.completion.chunk\",\"created\":".data ++
  (toString c.created).data ++
  ",\"model\":".data ++ quoteJson c.model ++
  ",\"choices\":[\x7b\"index\":0,\"delta\":".data ++
  (match c.delta_content with
   | some s => "\x7b\"content\":".data ++ quoteJson s ++ "\x7d".data
   | none => "\x7b\x7d".data) ++
  ",\"finish_reason\":".data ++
  (match c.finish_reason with
   | some s => quoteJson s
   | none => "null".data) ++
  "\x7d]\x7d".data

/-- Bytes of one enqueue: chunks are framed as `data: <json>` plus a blank
line, and the terminator is the literal `data: [DONE]` plus a blank line. -/
def itemBytes : StreamItem → List Char
  | StreamItem.chunkItem c => "data: ".data ++ stringifyChunk c ++ "\n\n".data
  | StreamItem.doneItem => "data: [DONE]\n\n".data

/-- The chunk enqueued for one content delta (finish_reason: null). -/
def mkContentChunk (p : StreamParams) (c : List Char) : OpenAIChunk :=
  { id := p.id, model := p.model, created := p.created
  , delta_content := some c, finish_reason := none }

/-- The chunk enqueued by flush (`delta: {}`, `finish_reason: "stop"`). -/
def stopChunk (p : StreamParams) : OpenAIChunk :=
  { id := p.id, model := p.model, created := p.created
  , delta_content := none, finish_reason := some "stop".data }

/-- The body of the per-line loop in createUpstreamToOpenAIStream: what it
enqueues for one complete line (zero or one framed chunks). -/
def lineItems (p : StreamParams) (line : List Char) : List StreamItem :=
  if line.take 5 = "data:".data then
    let dataStr := trimChars (line.drop 5)
    if dataStr = "[DONE]".data then []
    else
      match jsonParse dataStr with
      | none => []
      | some data =>
        match deltaPath data with
        | some delta =>
          if truthy delta then
            match jGet "content".data delta with
            | some (Json.str c) => [StreamItem.chunkItem (mkContentChunk p c)]
            | _ => []
          else []
        | none => []
  else []

/-- The transform callback for one incoming chunk: append to the buffer,
split on newlines, pop the unterminated tail back into the buffer, and run
the per-line loop on the complete lines.  Returns (enqueues, new buffer). -/
def transformChunk (p : StreamParams) (buffer chunk : List Char) :
    List StreamItem × List Char :=
  let parts := splitNl (buffer ++ chunk)
  (parts.dropLast.flatMap (lineItems p), parts.getLastD [])

/-- The two enqueues of the flush callback. -/
def flushItems (p : StreamParams) : List StreamItem :=
  [StreamItem.chunkItem (stopChunk p), StreamItem.doneItem]

/-- A whole run of the TransformStream made by createUpstreamToOpenAIStream
over a finite sequence of upstream chunks, starting from the given buffer:
each chunk goes through the transform callback, and the flush callback
runs once when the upstream ends. -/
def runTransform (p : StreamParams) (buffer : List Char) :
    List (List Char) → List StreamItem
  | [] => flushItems p
  | c :: cs =>
    let step := transformChunk p buffer c
    step.1 ++ runTransform p step.2 cs

/-- The line-level view of the same buffering loop: the complete lines
handed to the per-line stage, and the final (discarded) buffer. -/
def reassembleAux (buffer : List Char) :
    List (List Char) → List (List Char) × List Char
  | [] => ([], buffer)
  | c :: cs =>
    let parts := splitNl (buffer ++ c)
    let r := reassembleAux (parts.getLastD []) cs
    (parts.dropLast ++ r.1, r.2)

/-- The Event Frame Reassembler of the spec: the complete lines the
buffering loop produces for a chunk sequence, the trailing unterminated
fragment being discarded at end of stream. -/
def reassemble (chunks : List (List Char)) : List (List Char) :=
  (reassembleAux [] chunks).1

/-- The message object of a non-streaming completion. -/
structure CompletionMessage where
  role : List Char
  content : List Char
deriving DecidableEq

/-- One choice of a non-streaming completion. -/
structure CompletionChoice where
  index : Nat
  message : CompletionMessage
  finish_reason : Option (List Char)
deriving DecidableEq

structure Usage where
  prompt_tokens : Nat
  completion_tokens : Nat
  total_tokens : Nat
deriving DecidableEq

/-- The OpenAICompletion shape returned by transformNonStreamResponse. -/
structure OpenAICompletion where
  id : List Char
  object : List Char
  created : Nat
  model : List Char
  choices : List CompletionChoice
  usage : Usage
deriving DecidableEq

/-- The body of the per-line loop in transformNonStreamResponse: one fold
step of the `fullContent` accumulator over one line. -/
def aggStep (acc : List Char) (line : List Char) : List Char :=
  if line.take 5 = "data:".data then
    let dataStr := trimChars (line.drop 5)
    if dataStr = "[DONE]".data then acc
    else
      match jsonParse dataStr with
      | none => acc
      | some data =>
        match contentPath data with
        | some content => if truthy content then acc ++ jsToString content else acc
        | none => acc
  else acc

/-- transformNonStreamResponse from src/index.ts: split the full body on
newlines, fold the per-line loop into `fullContent`, and wrap it in the
OpenAICompletion shape.  `created` stands for the wall-clock stamp. -/
def transformNonStreamResponse (fullBody requestId model : List Char)
    (created : Nat) : OpenAICompletion :=
  { id := requestId
  , object := "chat.completion".data
  , created := created
  , model := model
  , choices := [{ index := 0
                , message := { role := "assistant".data
                             , content := (splitNl fullBody).foldl aggStep [] }
                , finish_reason := some "stop".data }]
  , usage := { prompt_tokens := 0, completion_tokens := 0, total_tokens := 0 } }

/-- The aggregated `message.content` of a completion (its single choice). -/
def messageContent (r : OpenAICompletion) : List Char :=
  ((r.choices.head?.map (fun ch => ch.message.content)).getD [])

/-- A client chat request as the adapter reads it: an optional string
`model` field and the untouched `messages` value (absent allowed). -/
structure ChatRequest where
  model : Option (List Char)
  messages : Option Json

structure UpstreamSettings where
  avatar : Option Json
  name : List Char
  nickname : List Char
  age : Nat
  gender : List Char

structure UpstreamRequest where
  task : List Char
  model : List Char
  messages : Option Json
  imageUrl : Option Json
  settings : UpstreamSettings

/-- transformRequestToUpstream from src/index.ts.  The read of
CONFIG.DEFAULT_MODEL is passed in as `defaultModel`; `m || default` on a
string is the empty-string check. -/
def transformRequestToUpstream (requestData : ChatRequest)
    (defaultModel : List Char) : UpstreamRequest :=
  { task := "chat".data
  , model := match requestData.model with
             | some m => if m.isEmpty then defaultModel else m
             | none => defaultModel
  , messages := requestData.messages
  , imageUrl := none
  , settings := { avatar := none, name := [], nickname := []
                , age := 0, gender := "other".data } }

/-- A client HTTP request as the router and handleApi read it. -/
structure ApiRequest where
  method : List Char
  pathname : List Char
  authHeader : Option (List Char)

/-- The observable steps of handling one request, in order.  `errorResp`
carries the status and error code of createErrorResponse;
`chatCompletionsCall` covers the request transformation and the upstream
call of handleChatCompletions. -/
inductive Effect where
  | healthResp : Effect
  | notFoundResp : Effect
  | corsPreflight : Effect
  | errorResp : Nat → List Char → Effect
  | genRequestId : Effect
  | modelsResp : Effect
  | chatCompletionsCall : Effect
deriving DecidableEq

/-- handleApi from src/index.ts as an effect trace: CORS preflight, then
bearer-token authentication, then request-id generation, then routing. -/
def handleApi (masterKey : List Char) (r : ApiRequest) : List Effect :=
  if r.method = "OPTIONS".data then [Effect.corsPreflight]
  else
    match r.authHeader with
    | none => [Effect.errorResp 401 "unauthorized".data]
    | some h =>
      if h.take 7 = "Bearer ".data then
        if h.drop 7 = masterKey then
          Effect.genRequestId ::
            (if r.pathname = "/v1/models".data then [Effect.modelsResp]
             else if r.pathname = "/v1/chat/completions".data then
               [Effect.chatCompletionsCall]
             else [Effect.errorResp 404 "not_found".data])
        else [Effect.errorResp 403 "invalid_api_key".data]
      else [Effect.errorResp 401 "unauthorized".data]

/-- The fetch router of Bun.serve: health check, the /v1/ subtree, 404. -/
def serveFetch (masterKey : List Char) (r : ApiRequest) : List Effect :=
  if r.pathname = "/".data ∨ r.pathname = "/health".data then [Effect.healthResp]
  else if r.pathname.take 4 = "/v1/".data then handleApi masterKey r
  else [Effect.notFoundResp]

/-- Spec formulation of the per-line Stream Relay rule (§4.3 / claim C3):
skip non-`data:` lines, strip the prefix, trim, skip `[DONE]`, parse, and
emit the content exactly when `choices[0].delta.content` is a string. -/
def relayRule (line : List Char) : Option (List Char) :=
  if line.take 5 = "data:".data then
    let payload := trimChars (line.drop 5)
    if payload = "[DONE]".data then none
    else
      match jsonParse payload with
      | none => none
      | some data =>
        match contentPath data with
        | some (Json.str c) => some c
        | _ => none
  else none

/-- The contribution of a single line to the aggregated `fullContent`. -/
def aggContrib (line : List Char) : List Char :=
  aggStep [] line

/-- A valid upstream event line in the sense of claim C1: a `data:` line
whose payload is the `[DONE]` token or parses to JSON in which
`choices[0].delta.content` is a string or absent. -/
def ValidEventLine (line : List Char) : Prop :=
  line.take 5 = "data:".data ∧
  (trimChars (line.drop 5) = "[DONE]".data ∨
   ∃ d, jsonParse (trimChars (line.drop 5)) = some d ∧
     (contentPath d = none ∨ ∃ s, contentPath d = some (Json.str s)))

/-- The concatenation, in emission order, of the `delta.content` values of
the emitted stream items (items with no content contribute nothing). -/
def itemsContent (items : List StreamItem) : List Char :=
  (items.filterMap (fun i =>
    match i with
    | StreamItem.chunkItem c => c.delta_content
    | StreamItem.doneItem => none)).flatten

/-- The full event-stream body framing a list of event lines, each line
terminated by a newline. -/
def bodyOfLines (lines : List (List Char)) : List Char :=
  (lines.map (fun l => l ++ ['\n'])).flatten

theorem splitNl_ne_nil (l : List Char) : splitNl l ≠ [] := by
  cases l with
  | nil => simp [splitNl]
  | cons c cs =>
    simp only [splitNl]
    split
    · simp
    · split <;> simp

theorem splitNl_eq_splitCL (l : List Char) :
    splitNl l = (splitCL l).1 ++ [(splitCL l).2] := by
  induction l with
  | nil => rfl
  | cons c cs ih =>
    simp only [splitNl, splitCL]
    split
    · simp [ih]
    · rcases h1 : (splitCL cs).1 with _ | ⟨l₀, ls⟩ <;>
        rw [ih, h1] at * <;> simp_all

theorem splitCL_snd_noNl (l : List Char) : '\n' ∉ (splitCL l).2 := by
  induction l with
  | nil => simp [splitCL]
  | cons c cs ih =>
    by_cases hc : c = '\n'
    · simpa [splitCL, hc] using ih
    · rcases h1 : (splitCL cs).1 with _ | ⟨l₀, ls⟩
      · simp only [splitCL, if_neg hc, h1]
        intro hmem
        rcases List.mem_cons.mp hmem with h | h
        · exact hc h.symm
        · exact ih h
      · simpa [splitCL, hc, h1] using ih

theorem splitCL_of_noNl (l : List Char) (h : '\n' ∉ l) : splitCL l = ([], l) := by
  induction l with
  | nil => rfl
  | cons c cs ih =>
    have hc : c ≠ '\n' := fun hq => h (by simp [hq])
    have hcs : '\n' ∉ cs := fun hq => h (List.mem_cons_of_mem c hq)
    simp [splitCL, ih hcs, hc]

theorem splitCL_append (a b : List Char) :
    splitCL (a ++ b) =
      match splitCL b with
      | ([], t) => ((splitCL a).1, (splitCL a).2 ++ t)
      | (h :: ls, t) => ((splitCL a).1 ++ ((splitCL a).2 ++ h) :: ls, t) := by
  induction a with
  | nil =>
    rcases hb : splitCL b with ⟨_ | ⟨h, ls⟩, t⟩ <;> simp [splitCL, hb]
  | cons c a' ih =>
    rcases hb : splitCL b with ⟨_ | ⟨h, ls⟩, t⟩ <;>
      rw [hb] at ih <;>
      by_cases hc : c = '\n' <;>
      rcases ha : (splitCL a').1 with _ | ⟨l₀, ls'⟩ <;>
      simp_all [splitCL]

theorem splitCL_assoc (u v : List Char) :
    splitCL (u ++ v) =
      ((splitCL u).1 ++ (splitCL ((splitCL u).2 ++ v)).1,
       (splitCL ((splitCL u).2 ++ v)).2) := by
  have hu2 := splitCL_of_noNl (splitCL u).2 (splitCL_snd_noNl u)
  have h1 := splitCL_append u v
  have h2 := splitCL_append (splitCL u).2 v
  rw [hu2] at h2
  rcases hv : splitCL v with ⟨_ | ⟨h, ls⟩, t⟩ <;>
    rw [hv] at h1 h2 <;> simp_all

theorem splitNl_dropLast (x : List Char) : (splitNl x).dropLast = (splitCL x).1 := by
  rw [splitNl_eq_splitCL]
  exact List.dropLast_concat

theorem splitNl_getLastD (x : List Char) : (splitNl x).getLastD [] = (splitCL x).2 := by
  rw [splitNl_eq_splitCL]
  exact List.getLastD_concat _ _ _

theorem reassembleAux_eq (chunks : List (List Char)) :
    ∀ b : List Char, '\n' ∉ b →
      reassembleAux b chunks = splitCL (b ++ chunks.flatten) := by
  induction chunks with
  | nil =>
    intro b hb
    simp [reassembleAux, splitCL_of_noNl b hb]
  | cons c cs ih =>
    intro b hb
    have hb' : '\n' ∉ (splitCL (b ++ c)).2 := splitCL_snd_noNl (b ++ c)
    simp only [reassembleAux, splitNl_dropLast, splitNl_getLastD, ih _ hb',
      List.flatten_cons]
    rw [← List.append_assoc, splitCL_assoc (b ++ c) cs.flatten]

theorem reassemble_eq_splitCL (chunks : List (List Char)) :
    reassemble chunks = (splitCL chunks.flatten).1 := by
  unfold reassemble
  rw [reassembleAux_eq chunks [] (by simp)]
  rfl

theorem runTransform_eq (p : StreamParams) (chunks : List (List Char)) :
    ∀ b : List Char,
      runTransform p b chunks =
        (reassembleAux b chunks).1.flatMap (lineItems p) ++ flushItems p := by
  induction chunks with
  | nil => intro b; simp [runTransform, reassembleAux]
  | cons c cs ih =>
    intro b
    simp only [runTransform, reassembleAux, transformChunk, ih, List.flatMap_append,
      List.append_assoc]

theorem runTransform_reassemble (p : StreamParams) (chunks : List (List Char)) :
    runTransform p [] chunks =
      (reassemble chunks).flatMap (lineItems p) ++ flushItems p :=
  runTransform_eq p chunks []

theorem jGet_some_obj {k : List Char} {j : Json} {v : Json}
    (h : jGet k j = some v) : ∃ fs, j = Json.obj fs := by
  cases j <;> first
    | exact ⟨_, rfl⟩
    | simp [jGet] at h

theorem lineItems_eq_rule (p : StreamParams) (line : List Char) :
    lineItems p line =
      ((relayRule line).map
        (fun c => StreamItem.chunkItem (mkContentChunk p c))).toList := by
  unfold lineItems relayRule
  dsimp only
  split
  · split
    · rfl
    · rcases h1 : jsonParse (trimChars (List.drop 5 line)) with _ | d
      · simp [h1]
      · simp only [h1]
        rcases h2 : deltaPath d with _ | delta
        · simp [contentPath, h2]
        · simp only [contentPath, h2, Option.some_bind]
          rcases h3 : jGet "content".data delta with _ | v
          · simp only [h3]
            split <;> rfl
          · obtain ⟨fs, hfs⟩ := jGet_some_obj h3
            subst hfs
            simp only [h3, truthy, if_true]
            cases v <;> rfl
  · rfl

theorem aggStep_append (acc line : List Char) :
    aggStep acc line = acc ++ aggContrib line := by
  unfold aggContrib aggStep
  dsimp only
  split
  · split
    · simp
    · split
      · simp
      · split
        · split <;> simp
        · simp
  · simp

theorem foldl_aggStep (ls : List (List Char)) :
    ∀ acc : List Char,
      ls.foldl aggStep acc = acc ++ (ls.map aggContrib).flatten := by
  induction ls with
  | nil => intro acc; simp
  | cons l ls ih =>
    intro acc
    simp only [List.foldl_cons, ih, aggStep_append, List.map_cons,
      List.flatten_cons, List.append_assoc]

theorem messageContent_eq (fullBody requestId model : List Char) (created : Nat) :
    messageContent (transformNonStreamResponse fullBody requestId model created) =
      ((splitNl fullBody).map aggContrib).flatten := by
  simp [messageContent, transformNonStreamResponse, foldl_aggStep]

theorem itemsContent_append (xs ys : List StreamItem) :
    itemsContent (xs ++ ys) = itemsContent xs ++ itemsContent ys := by
  simp [itemsContent, List.filterMap_append]

theorem itemsContent_lineItems (p : StreamParams) (line : List Char) :
    itemsContent (lineItems p line) = (relayRule line).getD [] := by
  rw [lineItems_eq_rule]
  rcases relayRule line with _ | c <;> simp [itemsContent, mkContentChunk]

theorem itemsContent_flatMap (p : StreamParams) (ls : List (List Char)) :
    itemsContent (ls.flatMap (lineItems p)) =
      (ls.map (fun l => (relayRule l).getD [])).flatten := by
  induction ls with
  | nil => simp [itemsContent]
  | cons l ls ih =>
    simp [List.flatMap_cons, itemsContent_append, ih, itemsContent_lineItems]

theorem itemsContent_flush (p : StreamParams) : itemsContent (flushItems p) = [] := rfl

theorem valid_line_contrib (line : List Char) (hv : ValidEventLine line) :
    (relayRule line).getD [] = aggContrib line := by
  obtain ⟨h5, hpay⟩ := hv
  by_cases hdone : trimChars (List.drop 5 line) = "[DONE]".data
  · simp [relayRule, aggContrib, aggStep, h5, hdone]
  · rcases hpay with hdone2 | ⟨d, hparse, hcont⟩
    · exact absurd hdone2 hdone
    · rcases hcont with hnone | ⟨s, hsome⟩
      · simp [relayRule, aggContrib, aggStep, h5, hdone, hparse, hnone]
      · simp only [relayRule, aggContrib, aggStep, h5, if_pos, if_true,
          if_neg hdone, hparse, hsome, truthy, jsToString, Option.getD_some,
          List.nil_append]
        cases s <;> simp

theorem aggContrib_nil : aggContrib [] = [] := rfl

theorem splitCL_bodyOfLines (lines : List (List Char))
    (h : ∀ l ∈ lines, '\n' ∉ l) :
    splitCL (bodyOfLines lines) = (lines, []) := by
  induction lines with
  | nil => rfl
  | cons l ls ih =>
    have hl : '\n' ∉ l := h l (List.mem_cons_self l ls)
    have hls : ∀ x ∈ ls, '\n' ∉ x := fun x hx => h x (List.mem_cons_of_mem l hx)
    have h2 : splitCL ('\n' :: bodyOfLines ls) = ([] :: ls, []) := by
      simp [splitCL, ih hls]
    have h3 : bodyOfLines (l :: ls) = l ++ '\n' :: bodyOfLines ls := by
      simp [bodyOfLines]
    rw [h3, splitCL_append l ('\n' :: bodyOfLines ls), h2,
      splitCL_of_noNl l hl]
    simp

/-- Concrete stream parameters used by the witnesses. -/
def pTest : StreamParams :=
  { id := "chatcmpl-test".data, model := "L1T3-Ωᴹ²".data, created := 0 }

def ridTest : List Char := "chatcmpl-test".data

def modelTest : List Char := "L1T3-Ωᴹ²".data

/-- The first event line of the §8 example body. -/
def hiLine : List Char :=
  "data: \x7b\"choices\":[\x7b\"delta\":\x7b\"content\":\"Hi\"\x7d\x7d]\x7d".data

/-- The second event line of the §8 example body. -/
def thereLine : List Char :=
  "data: \x7b\"choices\":[\x7b\"delta\":\x7b\"content\":\" there\"\x7d\x7d]\x7d".data

def doneLine : List Char := "data: [DONE]".data

def badLine : List Char := "data: not-json".data

/-- The parsed payload of `hiLine`. -/
def hiJson : Json :=
  Json.obj [("choices".data, Json.arr
    [Json.obj [("delta".data, Json.obj [("content".data, Json.str "Hi".data)])]])]

/-- The parsed payload of `thereLine`. -/
def thereJson : Json :=
  Json.obj [("choices".data, Json.arr
    [Json.obj [("delta".data, Json.obj [("content".data, Json.str " there".data)])]])]

/-- C2: for every byte sequence and every way of splitting it into an
ordered list of chunks, feeding the chunks one at a time to the Event
Frame Reassembler yields the same complete newline-delimited lines as
feeding the whole sequence as one chunk, and in every fragmentation the
final fragment not terminated by a newline is dropped (never emitted)
when the stream ends: the yielded lines are exactly all segments of the
newline split except the last. -/
theorem c2_reassembly_fragmentation_invariant (chunks : List (List Char)) :
    reassemble chunks = reassemble [chunks.flatten] ∧
    reassemble chunks = (splitNl chunks.flatten).dropLast := by
  have h1 := reassemble_eq_splitCL chunks
  have h2 := reassemble_eq_splitCL [chunks.flatten]
  constructor
  · rw [h1, h2]
    simp
  · rw [h1, splitNl_dropLast]

/-- C9: starting from the empty buffer, after the Event Frame Reassembler
processes any sequence of chunks the carried-over buffer contains no
newline character, and it is exactly the unterminated tail of the input
seen so far (every completed line has been handed to the per-line
stage). -/
theorem c9_reassembler_buffer_invariant (chunks : List (List Char)) :
    ((reassembleAux [] chunks).2).contains '\n' = false ∧
    (reassembleAux [] chunks).2 = (splitCL chunks.flatten).2 := by
  have h := reassembleAux_eq chunks [] (by simp)
  constructor
  · rw [h]
    simpa using splitCL_snd_noNl chunks.flatten
  · rw [h, List.nil_append]

/-- C3: per reassembled line the Stream Relay emits exactly zero or one
chunk: nothing for a line without the `data:` prefix, nothing for a
`[DONE]` payload after trimming, nothing on a JSON parse failure, and one
chunk with `finish_reason` null carrying `choices[0].delta.content` as
`delta.content` exactly when that field is a string (the empty string
included); absent or non-string content emits nothing.  `relayRule` is
the rule as the claim words it. -/
theorem c3_relay_per_line_rule (p : StreamParams) (line : List Char) :
    lineItems p line =
      ((relayRule line).map (fun c =>
        StreamItem.chunkItem
          { id := p.id, model := p.model, created := p.created
          , delta_content := some c, finish_reason := none })).toList :=
  lineItems_eq_rule p line

/-- C5: for every stream (the zero-content stream included) the flush
stage runs exactly once at stream end and appends, after the relayed
content chunks (each of which carries content and a null finish_reason),
exactly one chunk with empty delta and finish_reason "stop" and then the
terminator bytes `data: [DONE]` plus a blank line, ending the body. -/
theorem c5_finalize_stop_then_done (p : StreamParams) (chunks : List (List Char)) :
    runTransform p [] chunks =
        (reassemble chunks).flatMap (lineItems p) ++
          [StreamItem.chunkItem
            { id := p.id, model := p.model, created := p.created
            , delta_content := none, finish_reason := some "stop".data },
           StreamItem.doneItem] ∧
    ((reassemble chunks).flatMap (lineItems p)).all
        (fun i => match i with
          | StreamItem.chunkItem c =>
              c.delta_content.isSome && c.finish_reason.isNone
          | StreamItem.doneItem => false) = true ∧
    ((runTransform p [] chunks).map itemBytes).flatten =
      (((reassemble chunks).flatMap (lineItems p)).map itemBytes).flatten ++
        ("data: ".data ++ stringifyChunk (stopChunk p) ++ "\n\n".data ++
         "data: [DONE]\n\n".data) := by
  refine ⟨runTransform_reassemble p chunks, ?_, ?_⟩
  · rw [List.all_eq_true]
    intro i hi
    rw [List.mem_flatMap] at hi
    obtain ⟨l, _, hil⟩ := hi
    rw [lineItems_eq_rule] at hil
    rcases h : relayRule l with _ | c <;> rw [h] at hil
    · simp at hil
    · simp at hil
      subst hil
      rfl
  · rw [runTransform_reassemble]
    simp [flushItems, itemBytes, List.map_append, List.flatten_append,
      List.append_assoc]

/-- C7: the Request Adapter is pure and total, returning task "chat", the
client model if present and non-empty else the default model, the
messages value unmodified, a null imageUrl and the fixed settings object;
on the §8 input with default model "L1T3-Ωᴹ²" it produces exactly the §8
object. -/
theorem c7_request_adapter (requestData : ChatRequest) (defaultModel : List Char) :
    transformRequestToUpstream requestData defaultModel =
      { task := "chat".data
      , model := match requestData.model with
                 | some m => if m.isEmpty then defaultModel else m
                 | none => defaultModel
      , messages := requestData.messages
      , imageUrl := none
      , settings := { avatar := none, name := [], nickname := []
                    , age := 0, gender := "other".data } } ∧
    transformRequestToUpstream
        { model := none
        , messages := some (Json.arr [Json.obj
            [("role".data, Json.str "user".data),
             ("content".data, Json.str "hi".data)]]) }
        "L1T3-Ωᴹ²".data =
      { task := "chat".data
      , model := "L1T3-Ωᴹ²".data
      , messages := some (Json.arr [Json.obj
          [("role".data, Json.str "user".data),
           ("content".data, Json.str "hi".data)]])
      , imageUrl := none
      , settings := { avatar := none, name := [], nickname := []
                    , age := 0, gender := "other".data } } :=
  ⟨rfl, rfl⟩

/-- C6: a `data:` line with a malformed JSON payload is skipped by both
transformers without an error, without stopping processing, and without
changing the output for the surrounding lines: both the relayed items and
the aggregated content over `pre ++ [line] ++ post` equal those over
`pre ++ post`. -/
theorem c6_malformed_line_skipped (p : StreamParams)
    (pre post : List (List Char)) (line : List Char)
    (h5 : line.take 5 = "data:".data)
    (hbad : jsonParse (trimChars (line.drop 5)) = none) :
    (pre ++ line :: post).flatMap (lineItems p) =
        (pre ++ post).flatMap (lineItems p) ∧
    (pre ++ line :: post).foldl aggStep [] = (pre ++ post).foldl aggStep [] := by
  have hrel : lineItems p line = [] := by
    unfold lineItems
    dsimp only
    rw [if_pos h5]
    split
    · rfl
    · rw [hbad]
  have hagg : aggContrib line = [] := by
    unfold aggContrib aggStep
    dsimp only
    rw [if_pos h5]
    split
    · rfl
    · rw [hbad]
  constructor
  · simp [List.flatMap_append, List.flatMap_cons, hrel]
  · rw [foldl_aggStep, foldl_aggStep]
    simp [hagg]

/-- C6 witness: `data: not-json` between the two §8 content lines changes
nothing for either transformer. -/
theorem c6_witness :
    ([hiLine] ++ badLine :: [thereLine]).flatMap (lineItems pTest) =
        ([hiLine] ++ [thereLine]).flatMap (lineItems pTest) ∧
    ([hiLine] ++ badLine :: [thereLine]).foldl aggStep [] =
        ([hiLine] ++ [thereLine]).foldl aggStep [] :=
  c6_malformed_line_skipped pTest [hiLine] [thereLine] badLine (by decide) rfl

/-- C8: a `data: [DONE]` payload line is not treated as end of input by
either transformer: the output over `pre ++ [doneLine] ++ post` equals
the output over `pre ++ post`, so lines after it are processed exactly
as if the `[DONE]` line were absent. -/
theorem c8_done_payload_not_terminator (p : StreamParams)
    (pre post : List (List Char)) (line : List Char)
    (h5 : line.take 5 = "data:".data)
    (hdone : trimChars (line.drop 5) = "[DONE]".data) :
    (pre ++ line :: post).flatMap (lineItems p) =
        (pre ++ post).flatMap (lineItems p) ∧
    (pre ++ line :: post).foldl aggStep [] = (pre ++ post).foldl aggStep [] := by
  have hrel : lineItems p line = [] := by
    unfold lineItems
    dsimp only
    rw [if_pos h5, if_pos hdone]
  have hagg : aggContrib line = [] := by
    unfold aggContrib aggStep
    dsimp only
    rw [if_pos h5, if_pos hdone]
  constructor
  · simp [List.flatMap_append, List.flatMap_cons, hrel]
  · rw [foldl_aggStep, foldl_aggStep]
    simp [hagg]

/-- C8 witness: a content line after `data: [DONE]` is still relayed and
aggregated, exactly as if the `[DONE]` line were absent. -/
theorem c8_witness :
    ([hiLine] ++ doneLine :: [thereLine]).flatMap (lineItems pTest) =
        ([hiLine] ++ [thereLine]).flatMap (lineItems pTest) ∧
    ([hiLine] ++ doneLine :: [thereLine]).foldl aggStep [] =
        ([hiLine] ++ [thereLine]).foldl aggStep [] :=
  c8_done_payload_not_terminator pTest [hiLine] [thereLine] doneLine
    (by decide) (by decide)

/-- C10: a non-OPTIONS request to a /v1/ path whose Authorization header
is absent, lacks the Bearer scheme, or carries a token different from the
master key is answered with exactly one 401 or 403 error response — the
trace holds no request-id generation, no transformation and no upstream
call. -/
theorem c10_bad_auth_rejected_first (masterKey : List Char) (r : ApiRequest)
    (hm : r.method ≠ "OPTIONS".data)
    (hp : r.pathname.take 4 = "/v1/".data)
    (hbad : ∀ h, r.authHeader = some h →
      h.take 7 ≠ "Bearer ".data ∨ h.drop 7 ≠ masterKey) :
    serveFetch masterKey r = [Effect.errorResp 401 "unauthorized".data] ∨
    serveFetch masterKey r = [Effect.errorResp 403 "invalid_api_key".data] := by
  have hroot : r.pathname ≠ "/".data := by
    intro hq
    rw [hq] at hp
    exact absurd hp (by decide)
  have hhealth : r.pathname ≠ "/health".data := by
    intro hq
    rw [hq] at hp
    exact absurd hp (by decide)
  unfold serveFetch
  rw [if_neg (by rintro (hq | hq); exacts [hroot hq, hhealth hq]), if_pos hp]
  unfold handleApi
  rw [if_neg hm]
  rcases hh : r.authHeader with _ | h
  · left
    rfl
  · dsimp only
    rcases hbad h hh with hb | hb
    · left
      rw [if_neg hb]
    · by_cases hbt : h.take 7 = "Bearer ".data
      · right
        rw [if_pos hbt, if_neg hb]
      · left
        rw [if_neg hbt]

/-- C10 witness: a GET of /v1/models without an Authorization header is
refused with a bare 401 or 403 error trace. -/
theorem c10_witness :
    serveFetch "1".data
        { method := "GET".data, pathname := "/v1/models".data, authHeader := none } =
      [Effect.errorResp 401 "unauthorized".data] ∨
    serveFetch "1".data
        { method := "GET".data, pathname := "/v1/models".data, authHeader := none } =
      [Effect.errorResp 403 "invalid_api_key".data] :=
  c10_bad_auth_rejected_first "1".data
    { method := "GET".data, pathname := "/v1/models".data, authHeader := none }
    (by decide) (by decide) (fun h hq => Option.noConfusion hq)

/-- C1: for every sequence of valid upstream event lines (payload
`[DONE]` or JSON with string-or-absent `choices[0].delta.content`) and
every chunk fragmentation of the newline-framed body, the concatenation
in emission order of the `delta.content` values the Stream Relay emits
for the reassembled lines equals the `message.content` the Response
Aggregator returns for the same full body. -/
theorem c1_stream_and_aggregator_agree (p : StreamParams)
    (requestId model : List Char) (created : Nat)
    (lines chunks : List (List Char))
    (hvalid : ∀ l ∈ lines, ValidEventLine l)
    (hnl : ∀ l ∈ lines, '\n' ∉ l)
    (hchunks : chunks.flatten = bodyOfLines lines) :
    itemsContent (runTransform p [] chunks) =
      messageContent
        (transformNonStreamResponse (bodyOfLines lines) requestId model created) := by
  rw [runTransform_reassemble, itemsContent_append, itemsContent_flush,
    List.append_nil, itemsContent_flatMap]
  rw [reassemble_eq_splitCL, hchunks, splitCL_bodyOfLines lines hnl]
  rw [messageContent_eq]
  have hb : splitNl (bodyOfLines lines) = lines ++ [[]] := by
    rw [splitNl_eq_splitCL, splitCL_bodyOfLines lines hnl]
  rw [hb]
  dsimp only
  simp only [List.map_append, List.map_cons, List.map_nil, aggContrib_nil,
    List.flatten_append, List.flatten_cons, List.flatten_nil, List.append_nil]
  exact congrArg List.flatten
    (List.map_eq_map_iff.mpr (fun l hl => valid_line_contrib l (hvalid l hl)))

def linesTest : List (List Char) := [hiLine, thereLine, doneLine]

/-- C1 witness: on the §8 event lines, fed as one chunk, the streamed
content concatenation equals the aggregated message content. -/
theorem c1_witness :
    itemsContent (runTransform pTest [] [bodyOfLines linesTest]) =
      messageContent (transformNonStreamResponse (bodyOfLines linesTest)
        ridTest modelTest 0) := by
  apply c1_stream_and_aggregator_agree pTest ridTest modelTest 0 linesTest
  · intro l hl
    simp only [linesTest, List.mem_cons, List.not_mem_nil, or_false] at hl
    rcases hl with rfl | rfl | rfl
    · exact ⟨by decide, Or.inr ⟨hiJson, rfl, Or.inr ⟨"Hi".data, rfl⟩⟩⟩
    · exact ⟨by decide, Or.inr ⟨thereJson, rfl, Or.inr ⟨" there".data, rfl⟩⟩⟩
    · exact ⟨by decide, Or.inl (by decide)⟩
  · intro l hl
    simp only [linesTest, List.mem_cons, List.not_mem_nil, or_false] at hl
    rcases hl with rfl | rfl | rfl <;> decide
  · simp

/-- The counterexample body for C4: its single content value is the JSON
boolean true, a truthy non-string. -/
def trueBody : List Char :=
  "data: \x7b\"choices\":[\x7b\"delta\":\x7b\"content\":true\x7d\x7d]\x7d\n".data

/-- The §8 example body for the Response Aggregator. -/
def hiThereBody : List Char :=
  ("data: \x7b\"choices\":[\x7b\"delta\":\x7b\"content\":\"Hi\"\x7d\x7d]\x7d\n\n"
   ++ "data: \x7b\"choices\":[\x7b\"delta\":\x7b\"content\":\" there\"\x7d\x7d]\x7d\n\n"
   ++ "data: [DONE]\n\n").data

/-- C4 counterexample: on the body whose single content value is the JSON
boolean true, transformNonStreamResponse returns "true", while the Stream
Relay filtering of the same lines extracts no content string at all — the
aggregator does not apply the same content filtering as the relay. -/
theorem c4_counterexample :
    messageContent (transformNonStreamResponse trueBody ridTest modelTest 0)
        = "true".data ∧
    ((splitNl trueBody).map (fun l => (relayRule l).getD [])).flatten = [] ∧
    "true".data ≠ ([] : List Char) :=
  ⟨rfl, rfl, by decide⟩

/-- C4 amended: the aggregator splits the body on newline, applies the
`data:` prefix / `[DONE]` / JSON-parse-and-ignore-on-failure filtering,
and its message.content is the concatenation, in line order, of the
per-line contributions, where a line contributes its extracted content
coerced to a string when that content is JS-truthy (rather than exactly
when it is a string as the relay does) and nothing otherwise; on the §8
example body it returns "Hi there". -/
theorem c4_aggregator_content (fullBody requestId model : List Char)
    (created : Nat) :
    messageContent (transformNonStreamResponse fullBody requestId model created) =
      ((splitNl fullBody).map aggContrib).flatten ∧
    messageContent (transformNonStreamResponse hiThereBody ridTest modelTest 0)
      = "Hi there".data :=
  ⟨messageContent_eq fullBody requestId model created, rfl⟩
